import Mathlib

/-!
# Verification of the hypermvp merit-order pricing and ingestion engine

Shallow embedding, in Lean 4, of the core algorithms of the `hypermvp`
repository, together with theorems settling the specification claims.

* `Hypermvp.Pricing` embeds `calculate_marginal_prices` from
  `src/hypermvp/analysis/marginal_price.py` (the per-interval merit-order
  walk, lines 89-253).  Prices, capacities and volumes are modelled as
  exact rationals (`ℚ`); every concrete value appearing in the claims is
  exactly representable, and none of the claims depends on IEEE rounding.
* `Hypermvp.Etl` embeds `run_etl` from `src/hypermvp/provider/etl.py`
  together with `validate_sheets` from
  `src/hypermvp/provider/validators.py`.
* `Hypermvp.Loader` embeds `duck_transaction` and
  `load_excel_files_to_duckdb` from `src/hypermvp/provider/loader.py`.
* `Hypermvp.DbCleaner` embeds `update_provider_data_in_db` from
  `src/hypermvp/provider/provider_db_cleaner.py`.
* `Hypermvp.PandasUpdate` embeds `update_provider_data` from
  `src/hypermvp/provider/update_provider_data.py`.

The persistent store (a DuckDB table) is modelled as a list of rows; SQL
`DELETE ... WHERE d BETWEEN lo AND hi` becomes a filter, `INSERT` an
append.  A SQL `NULL` (or Python falsy / unparsable) date is modelled as
`Option.none`; `BETWEEN` is three-valued in SQL, so a `NULL` date never
matches the delete predicate, which the model reproduces.
-/

/- Batteries marks the `Rat` arithmetic operations `@[irreducible]`,
which blocks `decide`-style evaluation of the model on concrete
inputs; restore the default transparency (the kernel ignores the
annotation either way, so no proof changes meaning). -/
set_option allowUnsafeReducibility true in
attribute [semireducible] Rat.add Rat.mul Rat.neg Rat.sub Rat.div Rat.inv

namespace Hypermvp

namespace Pricing

/-- One provider offer as returned by the SQL query in
`calculate_marginal_prices` (columns `ENERGY_PRICE__EUR_MWh_ as
energy_price`, `OFFERED_CAPACITY__MW_ as capacity`, ordered by
`ENERGY_PRICE__EUR_MWh_ ASC`). -/
structure Offer where
  energy_price : ℚ
  capacity : ℚ
deriving Repr, DecidableEq

/-- One output row appended to `results` in `calculate_marginal_prices`.
Only the fields the claims are about are kept: `activated_volume_mw`,
`available_capacity_mw`, `marginal_price` (Python `None` is
`Option.none`).  The `capacity_warning` flag records whether the
`logging.warning("Activated volume ... exceeds available capacity ...")`
call at line 230-231 fires for the interval. -/
structure MarginalPriceRecord where
  activated_volume_mw : ℚ
  available_capacity_mw : ℚ
  marginal_price : Option ℚ
  capacity_warning : Bool
deriving Repr, DecidableEq

/-- Epsilon of the no-activation test, line 102: `abs(activated_volume) < 0.001`.
(Written with `mkRat` so that it evaluates by kernel reduction;
`epsilon_eq` below checks it is the rational `1/1000`.) -/
def epsilon : ℚ := mkRat 1 1000

/-- Python's builtin `abs` on the activated volume, written so that it
evaluates by kernel reduction. -/
def ratAbs (v : ℚ) : ℚ := if v < 0 then -v else v

/-- The merit-order walk of `calculate_marginal_prices`, lines 234-241:

    cumulative_capacity = 0
    marginal_price = None
    for _, offer in offers.iterrows():
        cumulative_capacity += offer['capacity']
        if cumulative_capacity >= activated_volume:
            marginal_price = offer['energy_price']
            break

`meritOrderWalk offers cum v` is the value of `marginal_price` when the
loop is entered with accumulator `cum`; the top-level call has `cum = 0`. -/
def meritOrderWalk : List Offer → ℚ → ℚ → Option ℚ
  | [], _, _ => none
  | o :: rest, cum, v =>
    if v ≤ cum + o.capacity then some o.energy_price
    else meritOrderWalk rest (cum + o.capacity) v

/-- `offers['capacity'].sum()`, line 227. -/
def totalCapacity (offers : List Offer) : ℚ :=
  (offers.map Offer.capacity).sum

/-- Cumulative capacity after the first `k` offers of the walk. -/
def cumulativeCapacity (offers : List Offer) (k : Nat) : ℚ :=
  ((offers.take k).map Offer.capacity).sum

/-- Body of the per-interval loop of `calculate_marginal_prices`
(lines 101-253), given the activated volume of the interval and the
offer list the product-code resolution produced (after the exact match
and the fallback queries; an empty list means even the fallbacks found
nothing):

* line 102: `if abs(activated_volume) < 0.001` — append a row with
  `available_capacity_mw = 0`, `marginal_price = None` (lines 104-113);
* lines 192-224: offer resolution empty — append a row with
  `available_capacity_mw = 0`, `marginal_price = None`;
* lines 226-253: `available_capacity = offers['capacity'].sum()`, warn
  when `activated_volume > available_capacity`, run the merit-order
  walk, append the row. -/
def resolveInterval (offers : List Offer) (v : ℚ) : MarginalPriceRecord :=
  if ratAbs v < epsilon then
    { activated_volume_mw := v
      available_capacity_mw := 0
      marginal_price := none
      capacity_warning := false }
  else if offers = [] then
    { activated_volume_mw := v
      available_capacity_mw := 0
      marginal_price := none
      capacity_warning := false }
  else
    { activated_volume_mw := v
      available_capacity_mw := totalCapacity offers
      marginal_price := meritOrderWalk offers 0 v
      capacity_warning := decide (totalCapacity offers < v) }

/-- The per-day loop of `calculate_marginal_prices` (lines 89-253): each
activation interval — here a pair of its activated volume and its
resolved offer list — contributes exactly one row to `results`
(`results.append` is reached on every path through the loop body). -/
def calculateDayRecords (intervals : List (ℚ × List Offer)) : List MarginalPriceRecord :=
  intervals.map fun iv => resolveInterval iv.2 iv.1

/-- The concrete bid book of the spec scenarios:
`[(price=10, cap=5), (price=20, cap=5), (price=30, cap=10)]`. -/
def exampleBook : List Offer :=
  [⟨10, 5⟩, ⟨20, 5⟩, ⟨30, 10⟩]

end Pricing

namespace Etl

/-- One row of a provider Excel sheet / of the `provider_raw` DuckDB
table.  `delivery_date` is the `DELIVERY_DATE` column; `none` models a
SQL `NULL` or Python-falsy (empty) value — both are skipped by the
min/max tracking in `run_etl` (`[str(d) for d in col if d]`) and never
match the SQL `BETWEEN` delete predicate.  Dates are modelled as
naturals: the source compares them as ISO-formatted strings, whose
lexicographic order is a linear order, which is all the code uses.
`payload` stands for the remaining columns of the row. -/
structure RawRow where
  delivery_date : Option Nat
  payload : Nat
deriving Repr, DecidableEq

/-- One sheet of an Excel workbook, as produced by `read_excel_file`:
its column headers and its rows. -/
structure Sheet where
  cols : List String
  rows : List RawRow
deriving Repr, DecidableEq

/-- `REQUIRED_COLUMNS` from `provider_etl_config.py` (`NOTE` is optional). -/
def REQUIRED_COLUMNS : List String :=
  ["DELIVERY_DATE", "PRODUCT", "ENERGY_PRICE_[EUR/MWh]",
   "ENERGY_PRICE_PAYMENT_DIRECTION", "ALLOCATED_CAPACITY_[MW]"]

/-- `validate_sheets` from `validators.py` (lines 169-183), via
`validate_excel_columns`: every required column must be among the
sheet's headers.  The source returns `(bool, message)`; only the
boolean steers control flow. -/
def validate_sheets (s : Sheet) : Bool :=
  REQUIRED_COLUMNS.all fun c => s.cols.contains c

/-- The non-falsy `DELIVERY_DATE` values of a sheet
(`[str(d) for d in col if d]`, `etl.py` line 66). -/
def sheetDates (s : Sheet) : List Nat :=
  s.rows.filterMap RawRow.delivery_date

/-- The sheets of the batch that pass validation, in file order then
sheet order — exactly the `extracted` list built by the loop of
`run_etl` (lines 47-75): a sheet failing validation is recorded as an
error and skipped (`continue`), a passing sheet is appended. -/
def validSheets (files : List (List Sheet)) : List Sheet :=
  files.flatten.filter validate_sheets

/-- Number of entries appended to `errors` by the validation loop of
`run_etl` (one per failing sheet; file read errors are outside the
model, the batch's workbooks being given already parsed). -/
def numInvalid (files : List (List Sheet)) : Nat :=
  (files.flatten.filter fun s => !validate_sheets s).length

/-- All dates contributing to the `min_date`/`max_date` tracking of
`run_etl` (lines 62-73): the non-falsy dates of the extracted sheets. -/
def batchDates (files : List (List Sheet)) : List Nat :=
  (validSheets files).flatMap sheetDates

/-- The running `min_date` of `run_etl`: the least date over all
extracted sheets (`none` when no extracted sheet has a date). -/
def batchMinDate (files : List (List Sheet)) : Option Nat :=
  (batchDates files).min?

/-- The running `max_date` of `run_etl`. -/
def batchMaxDate (files : List (List Sheet)) : Option Nat :=
  (batchDates files).max?

/-- The SQL predicate `DELIVERY_DATE BETWEEN lo AND hi` of the delete
step.  `BETWEEN` on a `NULL` date is not true, so such a row is never
deleted. -/
def dateInRange (lo hi : Nat) (r : RawRow) : Bool :=
  match r.delivery_date with
  | some d => decide (lo ≤ d) && decide (d ≤ hi)
  | none => false

/-- `DELETE FROM t WHERE DELIVERY_DATE BETWEEN lo AND hi`
(`etl.py` line 88, `loader.py` lines 83-86): the table keeps exactly
the rows not matching the predicate. -/
def deleteRange (lo hi : Nat) (store : List RawRow) : List RawRow :=
  store.filter fun r => !dateInRange lo hi r

/-- `run_etl` from `etl.py` (lines 23-118) acting on the store.  Input:
the batch as a list of files, each a list of sheets; the current
contents of the target table.  Output: the table after the run, the
`rows_loaded` figure and the number of validation errors of the
summary.

Mirrors the source: sheets failing validation are skipped and counted
as errors (lines 52-57); passing sheets are collected with their rows
and date range (lines 58-75); if anything was extracted, rows in the
`[min_date, max_date]` envelope are deleted — skipped when no date was
found (lines 86-90) — and all extracted rows are inserted
(`load_provider_data`, line 93); with nothing extracted the store is
untouched and zero rows are reported (lines 95-96). -/
def run_etl (files : List (List Sheet)) (store : List RawRow) :
    List RawRow × Nat × Nat :=
  let extracted := validSheets files
  let errors := numInvalid files
  if extracted = [] then
    (store, 0, errors)
  else
    let newRows := extracted.flatMap Sheet.rows
    let store' :=
      match batchMinDate files, batchMaxDate files with
      | some lo, some hi => deleteRange lo hi store
      | _, _ => store
    (store' ++ newRows, newRows.length, errors)

/-- A two-file batch for concrete checks, mirroring the repository's
own `tests/provider/test_etl.py`: the first file's sheet has all
required columns and one row dated 2024-09-01; the second file's sheet
is missing most required columns. -/
def exampleBatch : List (List Sheet) :=
  [[⟨REQUIRED_COLUMNS, [⟨some 20240901, 0⟩]⟩],
   [⟨["DELIVERY_DATE", "PRODUCT"], [⟨some 20240901, 1⟩]⟩]]

end Etl

namespace Loader

/-- `duck_transaction` from `loader.py` (lines 30-53): `BEGIN
TRANSACTION`, run the body, `COMMIT`; on any exception `ROLLBACK` and
re-raise.  The body is a function from the table contents to either a
final table with a row count, or an error.  The pair returned is the
table after the transaction together with the propagated outcome: on
an error the rollback leaves the table as it was. -/
def duck_transaction (store : List Etl.RawRow)
    (body : List Etl.RawRow → Except Nat (List Etl.RawRow × Nat)) :
    List Etl.RawRow × Except Nat Nat :=
  match body store with
  | .ok (st, n) => (st, .ok n)
  | .error e => (store, .error e)

/-- The per-file/sheet insert loop of `load_excel_files_to_duckdb`
(lines 89-115): each batch entry is the outcome of reading and
inserting that file/sheet — a list of rows, or an error (the
`except ... raise` at lines 113-115 aborts the loop on the first
failure).  `total_rows` accumulates the inserted counts. -/
def loadSheetsLoop :
    List (Except Nat (List Etl.RawRow)) → List Etl.RawRow → Nat →
    Except Nat (List Etl.RawRow × Nat)
  | [], st, n => .ok (st, n)
  | .error e :: _, _, _ => .error e
  | .ok rows :: rest, st, n => loadSheetsLoop rest (st ++ rows) (n + rows.length)

/-- `load_excel_files_to_duckdb` from `loader.py` (lines 55-117): one
transaction wrapping table creation (a no-op on the model), the
date-range delete, and the insert loop. -/
def load_excel_files_to_duckdb (lo hi : Nat)
    (sheetLoads : List (Except Nat (List Etl.RawRow)))
    (store : List Etl.RawRow) : List Etl.RawRow × Except Nat Nat :=
  duck_transaction store fun st =>
    loadSheetsLoop sheetLoads (Etl.deleteRange lo hi st) 0

end Loader

namespace DbCleaner

/-- One row of the `raw_provider_data` table as read by
`update_provider_data_in_db`.  `delivery_date` is the value of
`TRY_STRPTIME(DELIVERY_DATE, '%Y-%m-%d')`: `none` covers both a `NULL`
`DELIVERY_DATE` and an unparsable one — both are ignored by
`MIN`/`MAX` and excluded from the clean view (a `NULL` never satisfies
`BETWEEN`, and the view also requires `DELIVERY_DATE IS NOT NULL`).
`price` and `capacity` model the values of
`CAST(REPLACE(col, ',', '.') AS DOUBLE)`. -/
structure ProviderRawRow where
  delivery_date : Option Nat
  product : Option String
  price : ℚ
  direction : String
  capacity : ℚ
  source_file : String
deriving Repr, DecidableEq

/-- One row of the clean `provider_data` table
(schema at `provider_db_cleaner.py` lines 128-137). -/
structure ProviderCleanRow where
  delivery_date : Nat
  product : String
  price : ℚ
  capacity : ℚ
  period : Nat
  source_file : String
deriving Repr, DecidableEq

/-- SQL `product LIKE 'POS_%'`: in `LIKE`, `_` matches exactly one
character and `%` any suffix, so the pattern matches any string that
starts with `POS` and has length at least 4. -/
def likePOSPattern (p : String) : Bool :=
  p.startsWith "POS" && decide (4 ≤ p.length)

/-- `lo ≤ delivery_date ≤ hi` on a clean row — the
`DELIVERY_DATE BETWEEN min_date AND max_date` predicate of the
existing-row count and delete (lines 159-181). -/
def cleanDateInRange (lo hi : Nat) (r : ProviderCleanRow) : Bool :=
  decide (lo ≤ r.delivery_date) && decide (r.delivery_date ≤ hi)

/-- One row of `clean_data_view` (lines 187-221), from one raw row:
kept only when the product is non-`NULL` and not `LIKE 'POS_%'`, the
delivery date is non-`NULL`, parses, and falls within
`[min_date, max_date]`; the price is negated for
`ENERGY_PRICE_PAYMENT_DIRECTION = 'PROVIDER_TO_GRID'`; `period` is the
delivery date truncated to the day (equal to the parsed date in this
model). -/
def cleanViewRow (lo hi : Nat) (r : ProviderRawRow) : Option ProviderCleanRow :=
  match r.delivery_date, r.product with
  | some d, some p =>
    if (!likePOSPattern p) && decide (lo ≤ d) && decide (d ≤ hi) then
      some { delivery_date := d
             product := p
             price := if r.direction = "PROVIDER_TO_GRID" then -r.price else r.price
             capacity := r.capacity
             period := d
             source_file := r.source_file }
    else none
  | _, _ => none

/-- The full `clean_data_view` for the raw table.  The `ORDER BY` of
the view (line 220) is dropped: the view is only `INSERT`ed into a
table, whose contents are order-insensitive. -/
def cleanView (raw : List ProviderRawRow) (lo hi : Nat) : List ProviderCleanRow :=
  raw.filterMap (cleanViewRow lo hi)

/-- The parsed delivery dates of the raw table — the values over which
`MIN`/`MAX` range at lines 140-146 (`NULL`s are ignored by SQL
aggregates). -/
def rawDates (raw : List ProviderRawRow) : List Nat :=
  raw.filterMap ProviderRawRow.delivery_date

/-- `update_provider_data_in_db` from `provider_db_cleaner.py`
(lines 79-263), acting on the raw table (read-only here) and the clean
table.  Steps of the source and their model:

1. empty raw table → return with no change (lines 115-118);
2. clean table creation — a no-op on the model;
3. `MIN`/`MAX` of the parsed delivery dates; both `NULL`
   (no parsable date) → return with no change (lines 150-152);
4. delete the clean rows in `[min_date, max_date]` — the source guards
   the `DELETE` behind `existing_count > 0`, which is observationally
   the unconditional filter, and behind an interactive confirmation
   when stdin is a tty; the model is the non-interactive run;
5. insert `clean_data_view` (lines 223-227). -/
def update_provider_data_in_db (raw : List ProviderRawRow)
    (clean : List ProviderCleanRow) : List ProviderCleanRow :=
  if raw = [] then clean
  else
    match (rawDates raw).min?, (rawDates raw).max? with
    | some lo, some hi =>
        (clean.filter fun r => !cleanDateInRange lo hi r) ++ cleanView raw lo hi
    | _, _ => clean

end DbCleaner

namespace PandasUpdate

/-- One row of the `cleaned_data` pandas DataFrame passed to
`update_provider_data` in `update_provider_data.py` (columns the
`INSERT` at lines 70-81 carries, less the ones abstracted into
`payload`-like fields we do not need). -/
structure PDRow where
  delivery_date : Nat
  product : String
  price : ℚ
  capacity : ℚ
  period : Nat
deriving Repr, DecidableEq

/-- The distinct `period` keys in ascending order —
`cleaned_data.groupby("period")` iterates its groups in sorted key
order. -/
def sortedPeriods (rows : List PDRow) : List Nat :=
  List.insertionSort (· ≤ ·) (rows.map PDRow.period).dedup

/-- `update_provider_data` from `update_provider_data.py`
(lines 8-104) acting on the `provider_data` table: the existing table
is **dropped** (lines 40-42), recreated with the explicit schema
(lines 47-59), and the cleaned DataFrame is inserted group by `period`
group (lines 63-83).  The prior contents of the table do not survive,
whatever their dates. -/
def update_provider_data (cleaned_data : List PDRow)
    (_store : List PDRow) : List PDRow :=
  (sortedPeriods cleaned_data).flatMap fun p =>
    cleaned_data.filter fun r => r.period = p

end PandasUpdate

namespace Pricing

/-- The model's epsilon is the spec's `0.001 MW`. -/
theorem epsilon_eq : epsilon = 1 / 1000 := by norm_num [epsilon]

/-- The epsilon threshold is positive. -/
theorem epsilon_pos : 0 < epsilon := by decide

/-- The explicit `ratAbs` agrees with the absolute value on `ℚ`. -/
theorem ratAbs_eq_abs (v : ℚ) : ratAbs v = |v| := by
  by_cases h : v < 0
  · simp [ratAbs, h, abs_of_neg h]
  · simp [ratAbs, h, abs_of_nonneg (not_lt.mp h)]

/-- Zero offers consumed give zero cumulative capacity. -/
theorem cumulativeCapacity_zero (offers : List Offer) :
    cumulativeCapacity offers 0 = 0 := by
  simp [cumulativeCapacity]

/-- Unfolding one step of the cumulative capacity. -/
theorem cumulativeCapacity_cons (o : Offer) (l : List Offer) (k : Nat) :
    cumulativeCapacity (o :: l) (k + 1) = o.capacity + cumulativeCapacity l k := by
  simp [cumulativeCapacity]

/-- Consuming the whole book accumulates its total capacity. -/
theorem cumulativeCapacity_length (offers : List Offer) :
    cumulativeCapacity offers offers.length = totalCapacity offers := by
  simp [cumulativeCapacity, totalCapacity]

/-- With no offers the resolver emits a null price in both of its
branches. -/
theorem resolveInterval_nil (v : ℚ) :
    (resolveInterval [] v).marginal_price = none := by
  by_cases h : ratAbs v < epsilon <;> simp [resolveInterval, h]

/-- On an activated interval (`abs(v) ≥ epsilon`) with a non-empty
offer list, the resolver takes the merit-order branch of
lines 226-253. -/
theorem resolveInterval_active (offers : List Offer) (v : ℚ)
    (hv : epsilon ≤ ratAbs v) (hne : offers ≠ []) :
    resolveInterval offers v =
      { activated_volume_mw := v
        available_capacity_mw := totalCapacity offers
        marginal_price := meritOrderWalk offers 0 v
        capacity_warning := decide (totalCapacity offers < v) } := by
  rw [resolveInterval, if_neg (not_lt.mpr hv), if_neg hne]

/-- The walk stops at index `i` when the cumulative capacity first
reaches the target there: its result is that offer's price. -/
theorem meritOrderWalk_first (offers : List Offer) :
    ∀ (c v : ℚ) (i : Nat) (hi : i < offers.length),
      v ≤ c + cumulativeCapacity offers (i + 1) →
      (∀ j, j < i → c + cumulativeCapacity offers (j + 1) < v) →
      meritOrderWalk offers c v = some ((offers.get ⟨i, hi⟩).energy_price) := by
  induction offers with
  | nil => intro c v i hi; simp at hi
  | cons o rest ih =>
    intro c v i hi hcum hlt
    match i with
    | 0 =>
      have h1 : v ≤ c + o.capacity := by
        rw [cumulativeCapacity_cons, cumulativeCapacity_zero] at hcum
        linarith
      simp [meritOrderWalk, h1]
    | Nat.succ k =>
      have h0 : c + o.capacity < v := by
        have h := hlt 0 (Nat.succ_pos k)
        rw [cumulativeCapacity_cons, cumulativeCapacity_zero] at h
        linarith
      have hk : k < rest.length := Nat.lt_of_succ_lt_succ hi
      have hcum' : v ≤ (c + o.capacity) + cumulativeCapacity rest (k + 1) := by
        rw [cumulativeCapacity_cons] at hcum
        linarith
      have hlt' : ∀ j, j < k → (c + o.capacity) + cumulativeCapacity rest (j + 1) < v := by
        intro j hj
        have h := hlt (j + 1) (Nat.succ_lt_succ hj)
        rw [cumulativeCapacity_cons] at h
        linarith
      have hrec := ih (c + o.capacity) v k hk hcum' hlt'
      rw [meritOrderWalk, if_neg (not_le.mpr h0), hrec]
      rfl

/-- A price the walk returns is the price of one of the offers. -/
theorem meritOrderWalk_mem (offers : List Offer) :
    ∀ (c v p : ℚ), meritOrderWalk offers c v = some p →
      p ∈ offers.map Offer.energy_price := by
  induction offers with
  | nil => intro c v p h; simp [meritOrderWalk] at h
  | cons o rest ih =>
    intro c v p h
    rw [meritOrderWalk] at h
    by_cases hc : v ≤ c + o.capacity
    · rw [if_pos hc] at h
      simp [(Option.some.injEq _ _ ▸ h : o.energy_price = p).symm]
    · rw [if_neg hc] at h
      exact List.mem_cons_of_mem _ (ih (c + o.capacity) v p h)

/-- Monotonicity of the walk on an ascending-price book: a smaller
target clears no later, so at a price no larger. -/
theorem meritOrderWalk_mono :
    ∀ (offers : List Offer),
      offers.Sorted (fun a b => a.energy_price ≤ b.energy_price) →
      ∀ (c v₁ v₂ p₂ : ℚ), v₁ ≤ v₂ → meritOrderWalk offers c v₂ = some p₂ →
        ∃ p₁, meritOrderWalk offers c v₁ = some p₁ ∧ p₁ ≤ p₂
  | [], _, c, v₁, v₂, p₂, _, h2 => by simp [meritOrderWalk] at h2
  | o :: rest, hs, c, v₁, v₂, p₂, h12, h2 => by
    obtain ⟨hhead, hrest⟩ := List.sorted_cons.mp hs
    rw [meritOrderWalk] at h2
    by_cases hc2 : v₂ ≤ c + o.capacity
    · rw [if_pos hc2] at h2
      have hp2 : o.energy_price = p₂ := Option.some.inj h2
      have hc1 : v₁ ≤ c + o.capacity := le_trans h12 hc2
      exact ⟨o.energy_price, by rw [meritOrderWalk, if_pos hc1], le_of_eq hp2⟩
    · rw [if_neg hc2] at h2
      by_cases hc1 : v₁ ≤ c + o.capacity
      · obtain ⟨b, hb, hbp⟩ :=
          List.mem_map.mp (meritOrderWalk_mem rest (c + o.capacity) v₂ p₂ h2)
        have hle : o.energy_price ≤ p₂ := hbp ▸ hhead b hb
        exact ⟨o.energy_price, by rw [meritOrderWalk, if_pos hc1], hle⟩
      · obtain ⟨p₁, h1, hle⟩ :=
          meritOrderWalk_mono rest hrest (c + o.capacity) v₁ v₂ p₂ h12 h2
        exact ⟨p₁, by rw [meritOrderWalk, if_neg hc1]; exact h1, hle⟩

/-- With non-negative capacities, a target above the book's total is
never reached: the walk exhausts the offers and returns `none`. -/
theorem meritOrderWalk_exhausted (offers : List Offer) :
    ∀ (c v : ℚ), (∀ x ∈ offers, 0 ≤ x.capacity) →
      c + totalCapacity offers < v → meritOrderWalk offers c v = none := by
  induction offers with
  | nil => intro c v _ _; rfl
  | cons o rest ih =>
    intro c v hcaps hlt
    have htc : totalCapacity (o :: rest) = o.capacity + totalCapacity rest := by
      simp [totalCapacity]
    have hrest : 0 ≤ totalCapacity rest := by
      apply List.sum_nonneg
      intro x hx
      obtain ⟨a, ha, rfl⟩ := List.mem_map.mp hx
      exact hcaps a (List.mem_cons_of_mem o ha)
    rw [htc] at hlt
    have hc : ¬ (v ≤ c + o.capacity) := by
      intro h
      linarith
    rw [meritOrderWalk, if_neg hc]
    exact ih (c + o.capacity) v
      (fun x hx => hcaps x (List.mem_cons_of_mem o hx)) (by linarith)

/-- C1 (confirmed).  For every activation interval whose activated
volume has magnitude at least 0.001 MW and whose resolved offer list
is non-empty with total capacity at least the activated volume, the
emitted marginal price equals the price of the first offer whose
inclusion makes the cumulative capacity reach the activated volume. -/
theorem C1_marginal_price_is_first_covering_offer (offers : List Offer) (v : ℚ)
    (hv : epsilon ≤ ratAbs v) (hne : offers ≠ [])
    (htot : v ≤ totalCapacity offers) :
    ∃ i, ∃ hi : i < offers.length,
      v ≤ cumulativeCapacity offers (i + 1) ∧
      (∀ j, j < i → cumulativeCapacity offers (j + 1) < v) ∧
      (resolveInterval offers v).marginal_price =
        some ((offers.get ⟨i, hi⟩).energy_price) := by
  have hlen : 0 < offers.length := List.length_pos.mpr hne
  have hex : ∃ k, v ≤ cumulativeCapacity offers (k + 1) := by
    refine ⟨offers.length - 1, ?_⟩
    have hk : offers.length - 1 + 1 = offers.length := by omega
    rw [hk, cumulativeCapacity_length]
    exact htot
  have hPi : v ≤ cumulativeCapacity offers (Nat.find hex + 1) := Nat.find_spec hex
  have hmin : ∀ j, j < Nat.find hex → cumulativeCapacity offers (j + 1) < v :=
    fun j hj => lt_of_not_le (Nat.find_min hex hj)
  have hi : Nat.find hex < offers.length := by
    have hfle : Nat.find hex ≤ offers.length - 1 := by
      apply Nat.find_min'
      have hk : offers.length - 1 + 1 = offers.length := by omega
      rw [hk, cumulativeCapacity_length]
      exact htot
    omega
  refine ⟨Nat.find hex, hi, hPi, hmin, ?_⟩
  rw [resolveInterval_active offers v hv hne]
  exact meritOrderWalk_first offers 0 v (Nat.find hex) hi
    (by rw [zero_add]; exact hPi)
    (fun j hj => by rw [zero_add]; exact hmin j hj)

/-- Witness for C1 at the spec's concrete scenario: book
`[(10,5),(20,5),(30,10)]`, activated volume 7; the marginal price is
20, the price of the second offer, the first whose inclusion brings
the cumulative capacity (10) to the volume. -/
theorem C1_witness :
    (epsilon ≤ ratAbs 7 ∧ exampleBook ≠ [] ∧ (7 : ℚ) ≤ totalCapacity exampleBook ∧
      (resolveInterval exampleBook 7).marginal_price = some 20) ∧
    (∃ i, ∃ hi : i < exampleBook.length,
      (7 : ℚ) ≤ cumulativeCapacity exampleBook (i + 1) ∧
      (∀ j, j < i → cumulativeCapacity exampleBook (j + 1) < 7) ∧
      (resolveInterval exampleBook 7).marginal_price =
        some ((exampleBook.get ⟨i, hi⟩).energy_price)) :=
  ⟨⟨by decide, by decide, by decide, by decide⟩,
    C1_marginal_price_is_first_covering_offer exampleBook 7
      (by decide) (by decide) (by decide)⟩

/-- C2 (counterexample).  At the spec's own scenario — the book
`[(10,5),(20,5),(30,10)]` and activated volume 25, exceeding the
20 MW total — the code leaves `marginal_price = None` (the walk's
`if cumulative_capacity >= activated_volume` never fires, and nothing
assigns the last offer's price), so the emitted marginal price is
null, not 30; the capacity-exceeded warning does fire. -/
theorem C2_counterexample :
    (resolveInterval exampleBook 25).marginal_price = none ∧
    ¬ (resolveInterval exampleBook 25).marginal_price = some 30 ∧
    (resolveInterval exampleBook 25).capacity_warning = true := by decide

/-- C2 (amended).  For every activation interval whose activated
volume exceeds the total capacity of the resolved non-empty offer
list (with non-negative capacities), the emitted marginal price is
null — not the last offer's price — and the non-fatal
capacity-exceeded warning is raised. -/
theorem C2_amended_exceeded_gives_null_price_and_warning
    (offers : List Offer) (v : ℚ)
    (hv : epsilon ≤ ratAbs v) (hne : offers ≠ [])
    (hcaps : ∀ x ∈ offers, 0 ≤ x.capacity)
    (hexceed : totalCapacity offers < v) :
    (resolveInterval offers v).marginal_price = none ∧
    (resolveInterval offers v).capacity_warning = true := by
  rw [resolveInterval_active offers v hv hne]
  refine ⟨?_, ?_⟩
  · exact meritOrderWalk_exhausted offers 0 v hcaps (by linarith)
  · simp only [decide_eq_true_eq]
    exact hexceed

/-- Witness for the amended C2 at the spec's scenario: volume 25
against the 20 MW book. -/
theorem C2_witness :
    (epsilon ≤ ratAbs 25 ∧ exampleBook ≠ [] ∧
      (∀ x ∈ exampleBook, 0 ≤ x.capacity) ∧ totalCapacity exampleBook < 25) ∧
    ((resolveInterval exampleBook 25).marginal_price = none ∧
      (resolveInterval exampleBook 25).capacity_warning = true) :=
  ⟨⟨by decide, by decide, by decide, by decide⟩,
    C2_amended_exceeded_gives_null_price_and_warning exampleBook 25
      (by decide) (by decide) (by decide) (by decide)⟩

/-- C6 (counterexample).  At the spec's scenario — book
`[(10,5),(20,5),(30,10)]`, volume 7 — the code reports
`available_capacity_mw = 20` (`offers['capacity'].sum()`, the total of
all resolved offers), not the cumulative 10 consumed to clear the
volume that the claim asserts. -/
theorem C6_counterexample :
    (resolveInterval exampleBook 7).available_capacity_mw = 20 ∧
    ¬ (resolveInterval exampleBook 7).available_capacity_mw = 10 := by decide

/-- C6 (amended).  In every record emitted for an activated interval
with a non-empty resolved offer list, `available_capacity_mw` is the
total capacity of all resolved offers, independent of how much of it
the activated volume consumes. -/
theorem C6_amended_available_is_total_capacity (offers : List Offer) (v : ℚ)
    (hv : epsilon ≤ ratAbs v) (hne : offers ≠ []) :
    (resolveInterval offers v).available_capacity_mw = totalCapacity offers := by
  rw [resolveInterval_active offers v hv hne]

/-- Witness for the amended C6 at the spec's scenario: the reported
available capacity is the 20 MW total. -/
theorem C6_witness :
    (epsilon ≤ ratAbs 7 ∧ exampleBook ≠ []) ∧
    (resolveInterval exampleBook 7).available_capacity_mw = totalCapacity exampleBook ∧
    totalCapacity exampleBook = 20 :=
  ⟨⟨by decide, by decide⟩,
    C6_amended_available_is_total_capacity exampleBook 7 (by decide) (by decide),
    by decide⟩

/-- C7 (confirmed).  An interval whose activated volume has magnitude
below 0.001 MW still contributes exactly one record — the day's output
has one record per interval — and that record carries a null marginal
price and `available_capacity_mw = 0`. -/
theorem C7_no_activation_still_emits_record (intervals : List (ℚ × List Offer))
    (k : Nat) (hk : k < intervals.length)
    (hsmall : ratAbs (intervals.get ⟨k, hk⟩).1 < epsilon) :
    (calculateDayRecords intervals).length = intervals.length ∧
    ∃ hk' : k < (calculateDayRecords intervals).length,
      (calculateDayRecords intervals).get ⟨k, hk'⟩ =
        { activated_volume_mw := (intervals.get ⟨k, hk⟩).1
          available_capacity_mw := 0
          marginal_price := none
          capacity_warning := false } := by
  have hlen : (calculateDayRecords intervals).length = intervals.length := by
    simp [calculateDayRecords]
  refine ⟨hlen, hlen ▸ hk, ?_⟩
  have hget : (calculateDayRecords intervals).get ⟨k, hlen ▸ hk⟩ =
      resolveInterval (intervals.get ⟨k, hk⟩).2 (intervals.get ⟨k, hk⟩).1 := by
    simp [calculateDayRecords]
  rw [hget, resolveInterval, if_pos hsmall]

/-- Witness for C7 at the spec's scenario: the same book with
activated volume 0 yields a record with a null price. -/
theorem C7_witness :
    ratAbs ([((0 : ℚ), exampleBook)].get ⟨0, by decide⟩).1 < epsilon ∧
    (calculateDayRecords [((0 : ℚ), exampleBook)]).length = 1 ∧
    ∃ hk' : 0 < (calculateDayRecords [((0 : ℚ), exampleBook)]).length,
      (calculateDayRecords [((0 : ℚ), exampleBook)]).get ⟨0, hk'⟩ =
        { activated_volume_mw := ([((0 : ℚ), exampleBook)].get ⟨0, by decide⟩).1
          available_capacity_mw := 0
          marginal_price := none
          capacity_warning := false } :=
  ⟨by decide,
    (C7_no_activation_still_emits_record [((0 : ℚ), exampleBook)] 0
      (by decide) (by decide)).1,
    (C7_no_activation_still_emits_record [((0 : ℚ), exampleBook)] 0
      (by decide) (by decide)).2⟩

/-- C9 (confirmed).  For a fixed ascending-price offer book and two
activated volumes `v₁ ≤ v₂`, both of magnitude at least epsilon, if
the resolver prices `v₂` then it prices `v₁` at a price that is no
larger: the resolved marginal price is monotone non-decreasing in the
activated volume. -/
theorem C9_marginal_price_monotone_in_volume (offers : List Offer)
    (v₁ v₂ p₂ : ℚ)
    (hs : offers.Sorted fun a b => a.energy_price ≤ b.energy_price)
    (hv₁ : epsilon ≤ ratAbs v₁) (hv₂ : epsilon ≤ ratAbs v₂) (h12 : v₁ ≤ v₂)
    (h2 : (resolveInterval offers v₂).marginal_price = some p₂) :
    ∃ p₁, (resolveInterval offers v₁).marginal_price = some p₁ ∧ p₁ ≤ p₂ := by
  rcases eq_or_ne offers [] with rfl | hne
  · rw [resolveInterval_nil] at h2
    cases h2
  · rw [resolveInterval_active offers v₂ hv₂ hne] at h2
    rw [resolveInterval_active offers v₁ hv₁ hne]
    exact meritOrderWalk_mono offers hs 0 v₁ v₂ p₂ h12 h2

/-- Witness for C9 on the spec's book: volume 7 resolves at 20,
volume 12 at 30, and 20 ≤ 30. -/
theorem C9_witness :
    (exampleBook.Sorted (fun a b => a.energy_price ≤ b.energy_price) ∧
      epsilon ≤ ratAbs 7 ∧ epsilon ≤ ratAbs 12 ∧ (7 : ℚ) ≤ 12 ∧
      (resolveInterval exampleBook 12).marginal_price = some 30) ∧
    (∃ p₁, (resolveInterval exampleBook 7).marginal_price = some p₁ ∧ p₁ ≤ 30) :=
  ⟨⟨by decide, by decide, by decide, by decide, by decide⟩,
    C9_marginal_price_monotone_in_volume exampleBook 7 12 30
      (by decide) (by decide) (by decide) (by decide) (by decide)⟩

/-- C10 (confirmed).  A negative activated volume of magnitude at
least epsilon passes the no-activation test (taken on the absolute
value) and then satisfies the walk's `cumulative >= volume` test at
the very first offer (any non-negative cumulative exceeds a negative
target), so the emitted price is the first — cheapest — offer's
price, not a price derived from the volume's magnitude. -/
theorem C10_negative_volume_prices_at_first_offer (o : Offer)
    (rest : List Offer) (v : ℚ) (hneg : v ≤ -epsilon)
    (hcaps : ∀ x ∈ o :: rest, 0 ≤ x.capacity) :
    (resolveInterval (o :: rest) v).marginal_price = some o.energy_price := by
  have heps : 0 < epsilon := epsilon_pos
  have hvneg : v < 0 := by linarith
  have hv : epsilon ≤ ratAbs v := by
    rw [ratAbs, if_pos hvneg]
    linarith
  rw [resolveInterval_active _ v hv (by simp)]
  have h1 : v ≤ o.capacity := by
    have := hcaps o (List.mem_cons_self o rest)
    linarith
  simp [meritOrderWalk, h1]

/-- Witness for C10: the spec's book with activated volume −7 prices
at 10, the cheapest offer. -/
theorem C10_witness :
    ((-7 : ℚ) ≤ -epsilon ∧ ∀ x ∈ exampleBook, 0 ≤ x.capacity) ∧
    (resolveInterval exampleBook (-7)).marginal_price = some 10 :=
  ⟨⟨by decide, by decide⟩,
    C10_negative_volume_prices_at_first_offer ⟨10, 5⟩ [⟨20, 5⟩, ⟨30, 10⟩] (-7)
      (by decide) (by decide)⟩

end Pricing

namespace Etl

/-- `run_etl` with nothing extracted (every sheet failed validation):
the store is untouched and zero rows are reported. -/
theorem run_etl_eq_of_empty (files : List (List Sheet)) (store : List RawRow)
    (he : validSheets files = []) :
    run_etl files store = (store, 0, numInvalid files) := by
  simp only [run_etl]
  rw [if_pos he]

/-- `run_etl` with at least one extracted sheet: delete the envelope
(when one was found) and append every extracted row. -/
theorem run_etl_eq_of_extracted (files : List (List Sheet)) (store : List RawRow)
    (hne : validSheets files ≠ []) :
    run_etl files store =
      ((match batchMinDate files, batchMaxDate files with
        | some lo, some hi => deleteRange lo hi store
        | _, _ => store) ++ (validSheets files).flatMap Sheet.rows,
       ((validSheets files).flatMap Sheet.rows).length,
       numInvalid files) := by
  simp only [run_etl]
  rw [if_neg hne]

/-- A row surviving the range delete was in the store. -/
theorem mem_of_mem_deleteRange (lo hi : Nat) (store : List RawRow)
    (r : RawRow) (h : r ∈ deleteRange lo hi store) : r ∈ store :=
  (List.mem_filter.mp h).1

/-- The range delete keeps every copy of a row whose date is outside
the envelope (or null). -/
theorem count_deleteRange_of_out (lo hi : Nat) (store : List RawRow)
    (r : RawRow) (hout : dateInRange lo hi r = false) :
    List.count r (deleteRange lo hi store) = List.count r store := by
  apply List.count_filter
  simp [hout]

/-- Deleting the envelope leaves no row whose date is inside it. -/
theorem filter_dateInRange_deleteRange (lo hi : Nat) (store : List RawRow) :
    (deleteRange lo hi store).filter (dateInRange lo hi) = [] := by
  rw [deleteRange, List.filter_filter]
  apply List.filter_eq_nil_iff.mpr
  intro a _
  cases dateInRange lo hi a <;> simp

end Etl

/-- C3 (counterexample).  A batch of two files — the first valid with
one row, the second missing required columns — runs through `run_etl`
with one validation error, yet the valid file's row is committed: the
store grows from 0 to 1 rows, not zero rows from any file as the
claim asserts.  (The repository's own `tests/provider/test_etl.py`
asserts exactly this partial commit.) -/
theorem C3_counterexample :
    Etl.validate_sheets ⟨["DELIVERY_DATE", "PRODUCT"], [⟨some 20240901, 1⟩]⟩ = false ∧
    0 < Etl.numInvalid Etl.exampleBatch ∧
    (Etl.run_etl Etl.exampleBatch []).1.length = 1 ∧
    (Etl.run_etl Etl.exampleBatch []).2.1 = 1 := by decide

/-- C3 (amended).  A validation failure excludes only the failing
sheets: the reported row count is the number of rows of the sheets
that passed, every store row after the run comes from the prior store
or from a passing sheet (never from a failing one), and the store is
unchanged with zero rows reported only when no sheet passes. -/
theorem C3_amended_failure_excludes_only_failing_sheets
    (files : List (List Etl.Sheet)) (store : List Etl.RawRow)
    (_hfail : 0 < Etl.numInvalid files) :
    (Etl.run_etl files store).2.1 =
      ((Etl.validSheets files).flatMap Etl.Sheet.rows).length ∧
    (∀ r ∈ (Etl.run_etl files store).1,
      r ∈ store ∨ r ∈ (Etl.validSheets files).flatMap Etl.Sheet.rows) ∧
    (Etl.validSheets files = [] →
      (Etl.run_etl files store).1 = store ∧ (Etl.run_etl files store).2.1 = 0) := by
  by_cases hemp : Etl.validSheets files = []
  · rw [Etl.run_etl_eq_of_empty files store hemp]
    exact ⟨by simp [hemp], fun r hr => Or.inl hr, fun _ => ⟨rfl, rfl⟩⟩
  · rw [Etl.run_etl_eq_of_extracted files store hemp]
    refine ⟨rfl, ?_, fun h => absurd h hemp⟩
    intro r hr
    rcases List.mem_append.mp hr with h | h
    · left
      rcases hlo : Etl.batchMinDate files with _ | lo <;>
        rcases hhi : Etl.batchMaxDate files with _ | hi <;>
          rw [hlo, hhi] at h
      · exact h
      · exact h
      · exact h
      · exact Etl.mem_of_mem_deleteRange lo hi store r h
    · right
      exact h

/-- Witness for the amended C3 on the two-file batch: one row is
reported and committed, and it comes from the valid file. -/
theorem C3_witness :
    (0 < Etl.numInvalid Etl.exampleBatch) ∧
    ((Etl.run_etl Etl.exampleBatch [⟨some 5, 9⟩]).2.1 =
      ((Etl.validSheets Etl.exampleBatch).flatMap Etl.Sheet.rows).length ∧
    (∀ r ∈ (Etl.run_etl Etl.exampleBatch [⟨some 5, 9⟩]).1,
      r ∈ [(⟨some 5, 9⟩ : Etl.RawRow)] ∨
        r ∈ (Etl.validSheets Etl.exampleBatch).flatMap Etl.Sheet.rows) ∧
    (Etl.validSheets Etl.exampleBatch = [] →
      (Etl.run_etl Etl.exampleBatch [⟨some 5, 9⟩]).1 = [⟨some 5, 9⟩] ∧
      (Etl.run_etl Etl.exampleBatch [⟨some 5, 9⟩]).2.1 = 0)) :=
  ⟨by decide,
    C3_amended_failure_excludes_only_failing_sheets Etl.exampleBatch
      [⟨some 5, 9⟩] (by decide)⟩

namespace Loader

/-- If any entry of the batch fails, the insert loop raises that
(first) failure. -/
theorem loadSheetsLoop_error (loads : List (Except Nat (List Etl.RawRow))) :
    ∀ (st : List Etl.RawRow) (n : Nat), (∃ e, Except.error e ∈ loads) →
      ∃ e, loadSheetsLoop loads st n = Except.error e := by
  induction loads with
  | nil =>
    intro st n h
    obtain ⟨e, he⟩ := h
    simp at he
  | cons x rest ih =>
    intro st n h
    obtain ⟨e, he⟩ := h
    match x with
    | .error e' => exact ⟨e', rfl⟩
    | .ok rows =>
      rcases List.mem_cons.mp he with h | h
      · cases h
      · exact ih (st ++ rows) (n + rows.length) ⟨e, h⟩

/-- When every entry of the batch reads and inserts cleanly, the
transaction commits: range-delete then append of all rows, with the
total row count reported. -/
theorem load_excel_files_to_duckdb_ok (lo hi : Nat)
    (sheetRows : List (List Etl.RawRow)) (store : List Etl.RawRow) :
    load_excel_files_to_duckdb lo hi (sheetRows.map Except.ok) store =
      (Etl.deleteRange lo hi store ++ sheetRows.flatten,
        Except.ok sheetRows.flatten.length) := by
  have hloop : ∀ (rows : List (List Etl.RawRow)) (st : List Etl.RawRow) (n : Nat),
      loadSheetsLoop (rows.map Except.ok) st n =
        Except.ok (st ++ rows.flatten, n + rows.flatten.length) := by
    intro rows
    induction rows with
    | nil => intro st n; simp [loadSheetsLoop]
    | cons r rest ih =>
      intro st n
      rw [List.map_cons, loadSheetsLoop, ih]
      simp [List.append_assoc, Nat.add_assoc]
  rw [load_excel_files_to_duckdb, duck_transaction]
  simp [hloop]

end Loader

/-- C4 (confirmed).  If any step of the delete-then-insert phase
fails, `duck_transaction` rolls the whole transaction back and
re-raises: the caller gets the exception — no row count — and the
store is exactly its pre-batch contents. -/
theorem C4_failed_batch_rolls_back_and_propagates (lo hi : Nat)
    (loads : List (Except Nat (List Etl.RawRow))) (store : List Etl.RawRow)
    (hfail : ∃ e, Except.error e ∈ loads) :
    ∃ e, Loader.load_excel_files_to_duckdb lo hi loads store =
      (store, Except.error e) := by
  obtain ⟨e, he⟩ :=
    Loader.loadSheetsLoop_error loads (Etl.deleteRange lo hi store) 0 hfail
  refine ⟨e, ?_⟩
  rw [Loader.load_excel_files_to_duckdb, Loader.duck_transaction, he]

/-- Witness for C4: a batch whose second sheet fails leaves the
one-row store unchanged and surfaces an error. -/
theorem C4_witness :
    (∃ e, Except.error e ∈
      ([Except.ok [⟨some 1, 0⟩], Except.error 7] :
        List (Except Nat (List Etl.RawRow)))) ∧
    ∃ e, Loader.load_excel_files_to_duckdb 1 3
        [Except.ok [⟨some 1, 0⟩], Except.error 7] [⟨some 5, 9⟩] =
      ([⟨some 5, 9⟩], Except.error e) :=
  ⟨⟨7, by simp⟩,
    C4_failed_batch_rolls_back_and_propagates 1 3
      [Except.ok [⟨some 1, 0⟩], Except.error 7] [⟨some 5, 9⟩] ⟨7, by simp⟩⟩

/-- C5 (counterexample).  The clean-table ingestion path
`update_provider_data` (update_provider_data.py) drops and recreates
the whole table: a pre-existing row dated 2020-01-01 — strictly
before every date of the incoming batch, hence outside its
`[minDate, maxDate]` envelope — is gone after ingesting a 2024-09-01
batch, so rows outside the envelope are not left unchanged. -/
theorem C5_counterexample :
    (∀ r ∈ [(⟨20240901, "NEG_001", 20, 5, 20240901⟩ : PandasUpdate.PDRow)],
      (20200101 : Nat) < r.delivery_date) ∧
    (⟨20200101, "NEG_001", 10, 5, 20200101⟩ : PandasUpdate.PDRow) ∈
      [(⟨20200101, "NEG_001", 10, 5, 20200101⟩ : PandasUpdate.PDRow)] ∧
    (⟨20200101, "NEG_001", 10, 5, 20200101⟩ : PandasUpdate.PDRow) ∉
      PandasUpdate.update_provider_data
        [⟨20240901, "NEG_001", 20, 5, 20240901⟩]
        [⟨20200101, "NEG_001", 10, 5, 20200101⟩] := by decide

/-- C5 (amended).  In the batch ETL path (`run_etl`), ingestion
deletes only rows whose delivery date falls inside the computed
`[minDate, maxDate]` envelope: every store row with a date outside
the envelope (or a null date) keeps its multiplicity exactly,
augmented only by the batch's own copies of it among the inserted
rows.  (The legacy `update_provider_data` clean-table path instead
drops the whole table, per the counterexample.) -/
theorem C5_amended_run_etl_only_deletes_inside_envelope
    (files : List (List Etl.Sheet)) (store : List Etl.RawRow)
    (lo hi : Nat) (hlo : Etl.batchMinDate files = some lo)
    (hhi : Etl.batchMaxDate files = some hi)
    (r : Etl.RawRow) (hout : Etl.dateInRange lo hi r = false) :
    List.count r (Etl.run_etl files store).1 =
      List.count r store +
        List.count r ((Etl.validSheets files).flatMap Etl.Sheet.rows) := by
  by_cases hemp : Etl.validSheets files = []
  · rw [Etl.run_etl_eq_of_empty files store hemp, hemp]
    simp
  · rw [Etl.run_etl_eq_of_extracted files store hemp, hlo, hhi]
    rw [List.count_append, Etl.count_deleteRange_of_out lo hi store r hout]

/-- Witness for the amended C5: ingesting the two-file batch (envelope
2024-09-01..2024-09-01) over a store holding one row dated 10 keeps
that out-of-envelope row. -/
theorem C5_witness :
    (Etl.batchMinDate Etl.exampleBatch = some 20240901 ∧
      Etl.batchMaxDate Etl.exampleBatch = some 20240901 ∧
      Etl.dateInRange 20240901 20240901 ⟨some 10, 7⟩ = false) ∧
    List.count (⟨some 10, 7⟩ : Etl.RawRow)
        (Etl.run_etl Etl.exampleBatch [⟨some 10, 7⟩]).1 =
      List.count (⟨some 10, 7⟩ : Etl.RawRow) [(⟨some 10, 7⟩ : Etl.RawRow)] +
        List.count (⟨some 10, 7⟩ : Etl.RawRow)
          ((Etl.validSheets Etl.exampleBatch).flatMap Etl.Sheet.rows) :=
  ⟨⟨by decide, by decide, by decide⟩,
    C5_amended_run_etl_only_deletes_inside_envelope Etl.exampleBatch
      [⟨some 10, 7⟩] 20240901 20240901 (by decide) (by decide)
      ⟨some 10, 7⟩ (by decide)⟩

namespace DbCleaner

/-- A row the clean view emits has its delivery date inside the
`[min_date, max_date]` envelope (the view's `WHERE ... BETWEEN`). -/
theorem cleanViewRow_date_bounds (lo hi : Nat) (a : ProviderRawRow)
    (r : ProviderCleanRow) (heq : cleanViewRow lo hi a = some r) :
    lo ≤ r.delivery_date ∧ r.delivery_date ≤ hi := by
  rcases hd : a.delivery_date with _ | d
  · simp [cleanViewRow, hd] at heq
  · rcases hp : a.product with _ | p
    · simp [cleanViewRow, hd, hp] at heq
    · simp only [cleanViewRow, hd, hp] at heq
      by_cases hcond :
          (!likePOSPattern p && decide (lo ≤ d) && decide (d ≤ hi)) = true
      · rw [if_pos hcond] at heq
        obtain ⟨⟨h1, h2⟩, h3⟩ := by simpa using hcond
        rw [← Option.some.inj heq]
        exact ⟨h2, h3⟩
      · rw [if_neg hcond] at heq
        cases heq

/-- Every row of the clean view lies inside the envelope. -/
theorem cleanView_mem_bounds (raw : List ProviderRawRow) (lo hi : Nat)
    (r : ProviderCleanRow) (hr : r ∈ cleanView raw lo hi) :
    lo ≤ r.delivery_date ∧ r.delivery_date ≤ hi := by
  obtain ⟨a, _, heq⟩ := List.mem_filterMap.mp hr
  exact cleanViewRow_date_bounds lo hi a r heq

/-- The range delete of a second run removes nothing but clean-view
rows of the first run. -/
theorem cleanView_filter_out_eq_nil (raw : List ProviderRawRow) (lo hi : Nat) :
    (cleanView raw lo hi).filter (fun r => !cleanDateInRange lo hi r) = [] := by
  apply List.filter_eq_nil_iff.mpr
  intro a ha
  obtain ⟨h1, h2⟩ := cleanView_mem_bounds raw lo hi a ha
  simp [cleanDateInRange, h1, h2]

end DbCleaner

/-- C8 (confirmed).  Ingesting the same batch twice is idempotent, in
both cited engines.  First, re-running the transactional loader with
the same (successfully read) batch leaves the affected date range
with identical contents: the in-envelope rows after two runs equal
those after one.  Second, re-running the raw-to-clean date-range
replacement `update_provider_data_in_db` over the same raw table
returns the clean table unchanged: the second run deletes exactly
what the first inserted in the envelope — the clean view's rows all
lie inside it — and re-inserts the identical view. -/
theorem C8_reingesting_same_batch_is_idempotent :
    (∀ (lo hi : Nat) (sheetRows : List (List Etl.RawRow))
        (store : List Etl.RawRow),
      ((Loader.load_excel_files_to_duckdb lo hi (sheetRows.map Except.ok)
          (Loader.load_excel_files_to_duckdb lo hi (sheetRows.map Except.ok)
            store).1).1.filter (Etl.dateInRange lo hi)) =
        ((Loader.load_excel_files_to_duckdb lo hi (sheetRows.map Except.ok)
            store).1.filter (Etl.dateInRange lo hi))) ∧
    (∀ (raw : List DbCleaner.ProviderRawRow)
        (clean : List DbCleaner.ProviderCleanRow),
      DbCleaner.update_provider_data_in_db raw
          (DbCleaner.update_provider_data_in_db raw clean) =
        DbCleaner.update_provider_data_in_db raw clean) := by
  constructor
  · intro lo hi sheetRows store
    simp only [Loader.load_excel_files_to_duckdb_ok]
    simp [List.filter_append, Etl.filter_dateInRange_deleteRange]
  · intro raw clean
    by_cases hraw : raw = []
    · simp [DbCleaner.update_provider_data_in_db, hraw]
    · rcases hlo : (DbCleaner.rawDates raw).min? with _ | lo
      · simp [DbCleaner.update_provider_data_in_db, hraw, hlo]
      · rcases hhi : (DbCleaner.rawDates raw).max? with _ | hi
        · simp [DbCleaner.update_provider_data_in_db, hraw, hlo, hhi]
        · have hstep : ∀ cl, DbCleaner.update_provider_data_in_db raw cl =
              (cl.filter fun r => !DbCleaner.cleanDateInRange lo hi r) ++
                DbCleaner.cleanView raw lo hi := by
            intro cl
            rw [DbCleaner.update_provider_data_in_db, if_neg hraw, hlo, hhi]
          rw [hstep, hstep, List.filter_append,
            DbCleaner.cleanView_filter_out_eq_nil, List.append_nil,
            List.filter_filter]
          congr 1
          apply List.filter_congr
          intro x _
          cases DbCleaner.cleanDateInRange lo hi x <;> rfl

end Hypermvp
